import Mathlib

/-!
Verification of the secret-handling and API-contract layer of a
Dilithium-style signature library (`src/api.rs`).

Bytes are modelled as `Nat` (all byte-level operations used here —
`^^^` and `|||` — are exact on byte values, so no modular reduction is
needed). Fixed-width Rust arrays are modelled as `List Nat`; the
generation entry points produce lists of the right length, mirroring
the array types of the source.

The lattice cryptography itself (`sign.rs`) is an external collaborator
of this layer; it is modelled as an abstract `SigningPrimitive`
parameter, following the spec's external-interface contract.
-/

/-- Modelled from the spec: `params.rs` is not part of the layer under
verification. Fixed-size byte-array constant of the parameter set
(Dilithium3 sizes); no claim below depends on the particular value. -/
def PUBLICKEYBYTES : Nat := 1952

/-- Modelled from the spec: `params.rs` is not part of the layer under
verification. Length of a secret key in bytes. -/
def SECRETKEYBYTES : Nat := 4000

/-- Modelled from the spec: `params.rs` is not part of the layer under
verification. Length of a signature in bytes. -/
def SIGNBYTES : Nat := 3293

/-- Modelled from the spec: the seed is a "fixed-width byte sequence of
length `SEEDBYTES`"; the spec's scenario uses a 32-byte seed. -/
def SEEDBYTES : Nat := 32

/-- Modelled from the spec: the external signing primitive of §6, an
injectable interface with exactly three operations — keypair derivation
from a seed or fresh randomness, signature computation, and signature
verification. -/
structure SigningPrimitive where
  keypair_derive : List Nat → List Nat × List Nat
  signature_compute : List Nat → List Nat → List Nat
  signature_verify : List Nat → List Nat → List Nat → Bool

/-- The keypair of `src/api.rs`: a public byte array and a private
secret byte array. -/
structure Keypair where
  public : List Nat
  secret : List Nat

/-- The error taxonomy of `src/api.rs`: `Input` for malformed caller
input, `Verify` for cryptographic rejection. -/
inductive SignError where
  | Input
  | Verify
deriving DecidableEq

/-- Modelled from the spec: `crypto_sign_keypair` lives in `sign.rs`,
which is not part of the layer under verification. Per §4.1, with a
caller seed (`some s`) derivation is deterministic in the seed and the
ambient randomness is not consulted; with `none` the process-wide
randomness source feeds the derivation. The randomness drawn for the
call is made explicit as the `rng` argument. -/
def crypto_sign_keypair (P : SigningPrimitive) (rng : List Nat)
    (seed : Option (List Nat)) : List Nat × List Nat :=
  match seed with
  | some s => P.keypair_derive s
  | none => P.keypair_derive rng

/-- Modelled from the spec: `crypto_sign_signature` lives in `sign.rs`;
it computes a signature from the message and the secret key. -/
def crypto_sign_signature (P : SigningPrimitive) (msg sk : List Nat) :
    List Nat :=
  P.signature_compute msg sk

/-- Modelled from the spec: `crypto_sign_verify` lives in `sign.rs`;
the primitive's verification "returns success or `SignError::Verify`"
(§4.4). -/
def crypto_sign_verify (P : SigningPrimitive)
    (sig msg public_key : List Nat) : Except SignError Unit :=
  if P.signature_verify sig msg public_key then Except.ok ()
  else Except.error SignError.Verify

/-- `Keypair::generate_with_seed` from `src/api.rs`: builds both buffers
and fills them with a single `crypto_sign_keypair` call carrying
`Some(&seed)`. The `rng` argument is the randomness that would be
available to the call; the seeded path does not consult it. -/
def Keypair.generate_with_seed (P : SigningPrimitive) (rng : List Nat)
    (seed : List Nat) : Keypair :=
  let ps := crypto_sign_keypair P rng (some seed)
  { public := ps.1, secret := ps.2 }

/-- `Keypair::generate` from `src/api.rs`: builds both buffers and fills
them
with a single `crypto_sign_keypair` call carrying `None`, so the
randomness draw `rng` feeds the derivation. -/
def Keypair.generate (P : SigningPrimitive) (rng : List Nat) : Keypair :=
  let ps := crypto_sign_keypair P rng none
  { public := ps.1, secret := ps.2 }

/-- `Keypair::expose_secret` from `src/api.rs`: the one explicit
accessor of the secret bytes. -/
def Keypair.expose_secret (k : Keypair) : List Nat :=
  k.secret

/-- `Keypair::sign` from `src/api.rs`: a `SIGNBYTES` buffer is filled by
`crypto_sign_signature` from the message and the keypair's secret. -/
def Keypair.sign (P : SigningPrimitive) (k : Keypair) (msg : List Nat) :
    List Nat :=
  crypto_sign_signature P msg k.secret

/-- `Keypair::sign` as a call on a shared borrow of the receiver
(`&self` in the source): the call yields the signature together with
the receiver, which a shared borrow cannot mutate, so the returned
keypair is the receiver itself. -/
def Keypair.signCall (P : SigningPrimitive) (k : Keypair)
    (msg : List Nat) : List Nat × Keypair :=
  (Keypair.sign P k msg, k)

/-- Modelled from the spec: the scan inside `constant_time_eq` (an
external crate, not under `src/`) — "an unconditional full-length scan
accumulating a bitwise difference signal, with no early return" (§9).
Returns the accumulated difference signal together with the number of
byte pairs processed, so that the absence of short-circuiting is
itself a provable statement. -/
def ctScan : List Nat → List Nat → Nat × Nat
  | x :: xs, y :: ys => ((ctScan xs ys).1 ||| (x ^^^ y), (ctScan xs ys).2 + 1)
  | _, _ => (0, 0)

/-- Modelled from the spec: `constant_time_eq` from the crate of the
same name — equal lengths, and a zero accumulated difference signal
over every byte pair. -/
def constant_time_eq (a b : List Nat) : Bool :=
  a.length == b.length && (ctScan a b).1 == 0

/-- `Keypair::compare_secrets` from `src/api.rs`: constant-time equality
of the two secret byte sequences. -/
def Keypair.compare_secrets (k other : Keypair) : Bool :=
  constant_time_eq k.secret other.secret

/-- `verify` from `src/api.rs`: reject a wrong-length signature with
`SignError::Input` before anything reaches the primitive; otherwise
delegate to `crypto_sign_verify`. -/
def verify (P : SigningPrimitive) (sig msg public_key : List Nat) :
    Except SignError Unit :=
  if sig.length ≠ SIGNBYTES then Except.error SignError.Input
  else crypto_sign_verify P sig msg public_key

/-- The `Debug` rendering of `src/api.rs`: the public key is shown, the
secret field is replaced by the fixed `<elided>` marker. -/
def Keypair.debugFmt (k : Keypair) : String :=
  "public: " ++ reprStr k.public ++ "\nsecret: <elided>"

/-- The structural equality derived on `Keypair` by
`#[derive(PartialEq, Eq)]` in `src/api.rs`: field-by-field byte
equality of `public` and `secret`. -/
def Keypair.beq (k1 k2 : Keypair) : Bool :=
  (k1.public == k2.public) && (k1.secret == k2.secret)

/-- A keypair created by the public surface: by `generate` under some
randomness draw, or by `generate_with_seed` from some seed. -/
def Keypair.Generated (P : SigningPrimitive) (k : Keypair) : Prop :=
  (∃ rng, k = Keypair.generate P rng) ∨
    (∃ rng seed, k = Keypair.generate_with_seed P rng seed)

/-- Modelled from the spec: the contract of the external signing
primitive (§6) — a signature computed from a derived secret verifies
against the matching derived public key, and computed signatures have
length `SIGNBYTES`. -/
def SigningPrimitive.Correct (P : SigningPrimitive) : Prop :=
  (∀ input msg,
      P.signature_verify (P.signature_compute msg (P.keypair_derive input).2)
        msg (P.keypair_derive input).1 = true) ∧
  (∀ msg sk, (P.signature_compute msg sk).length = SIGNBYTES)

/-- A concrete signing primitive used to instantiate theorems with
hypotheses on concrete inputs. -/
def mockPrimitive : SigningPrimitive where
  keypair_derive := fun s => (s, s)
  signature_compute := fun _ _ => List.replicate SIGNBYTES 0
  signature_verify := fun _ _ _ => true

/-- A bitwise or of naturals vanishes exactly when both operands do. -/
theorem lor_eq_zero_aux (a b : Nat) : a ||| b = 0 ↔ a = 0 ∧ b = 0 := by
  constructor
  · intro h
    constructor
    · apply Nat.eq_of_testBit_eq
      intro i
      have := congrArg (fun n => Nat.testBit n i) h
      simp [Nat.testBit_lor] at this
      simp [this.1]
    · apply Nat.eq_of_testBit_eq
      intro i
      have := congrArg (fun n => Nat.testBit n i) h
      simp [Nat.testBit_lor] at this
      simp [this.2]
  · rintro ⟨rfl, rfl⟩
    rfl

/-- The scan inside `constant_time_eq` touches one byte pair per common
index: its step count is determined by the lengths of the two buffers
alone, never by their contents. -/
theorem ctScan_steps (a : List Nat) :
    ∀ b : List Nat, (ctScan a b).2 = min a.length b.length := by
  induction a with
  | nil => intro b; cases b <;> simp [ctScan]
  | cons x xs ih =>
    intro b
    cases b with
    | nil => simp [ctScan]
    | cons y ys =>
      simp only [ctScan, List.length_cons, ih ys]
      omega

/-- The accumulated difference signal of the scan is zero exactly when
the two equal-length buffers agree at every position. -/
theorem ctScan_acc_eq_zero (a : List Nat) :
    ∀ b : List Nat, a.length = b.length →
      ((ctScan a b).1 = 0 ↔ a = b) := by
  induction a with
  | nil =>
    intro b hb
    cases b with
    | nil => simp [ctScan]
    | cons y ys => simp at hb
  | cons x xs ih =>
    intro b hb
    cases b with
    | nil => simp at hb
    | cons y ys =>
      simp only [List.length_cons] at hb
      have hb' : xs.length = ys.length := by omega
      constructor
      · intro h
        have h' : (ctScan xs ys).1 = 0 ∧ x ^^^ y = 0 := by
          rw [← lor_eq_zero_aux]
          exact h
        have hx : x = y := Nat.xor_eq_zero.mp h'.2
        have hxs : xs = ys := (ih ys hb').mp h'.1
        rw [hx, hxs]
      · intro h
        obtain ⟨hx, hxs⟩ := List.cons_eq_cons.mp h
        show (ctScan xs ys).1 ||| (x ^^^ y) = 0
        rw [lor_eq_zero_aux]
        exact ⟨(ih ys hb').mpr hxs, Nat.xor_eq_zero.mpr hx⟩

/-- The `constant_time_eq` scan decides byte-sequence equality. -/
theorem constant_time_eq_iff (a b : List Nat) :
    constant_time_eq a b = true ↔ a = b := by
  unfold constant_time_eq
  rw [Bool.and_eq_true, beq_iff_eq, beq_iff_eq]
  constructor
  · rintro ⟨hlen, hacc⟩
    exact (ctScan_acc_eq_zero a b hlen).mp hacc
  · rintro rfl
    exact ⟨rfl, (ctScan_acc_eq_zero a a rfl).mpr rfl⟩

/-- C1: for every keypair created by `generate` or `generate_with_seed`
and every message (the empty message included), verifying the keypair's
signature on the message against the keypair's public key returns
`Ok(())`, assuming the external signing primitive satisfies its
contract. -/
theorem verify_sign_roundtrip (P : SigningPrimitive) (hP : P.Correct)
    (k : Keypair) (hk : Keypair.Generated P k) (msg : List Nat) :
    verify P (Keypair.sign P k msg) msg k.public = Except.ok () := by
  obtain ⟨hv, hlen⟩ := hP
  obtain ⟨input, hpub, hsec⟩ :
      ∃ input, k.public = (P.keypair_derive input).1 ∧
        k.secret = (P.keypair_derive input).2 := by
    rcases hk with ⟨rng, rfl⟩ | ⟨rng, seed, rfl⟩
    · exact ⟨rng, rfl, rfl⟩
    · exact ⟨seed, rfl, rfl⟩
  unfold verify Keypair.sign crypto_sign_signature crypto_sign_verify
  rw [if_neg (by simp [hlen msg k.secret])]
  rw [hpub, hsec, hv input msg]
  simp

/-- The hypotheses of the round-trip theorem hold at a concrete
primitive, keypair and message, and the theorem applies there. -/
theorem verify_sign_roundtrip_witness :
    mockPrimitive.Correct ∧
      Keypair.Generated mockPrimitive (Keypair.generate mockPrimitive []) ∧
      verify mockPrimitive
          (Keypair.sign mockPrimitive (Keypair.generate mockPrimitive []) [])
          [] (Keypair.generate mockPrimitive []).public = Except.ok () :=
  ⟨⟨fun _ _ => rfl, fun _ _ => by simp [mockPrimitive]⟩,
    Or.inl ⟨[], rfl⟩,
    verify_sign_roundtrip mockPrimitive
      ⟨fun _ _ => rfl, fun _ _ => by simp [mockPrimitive]⟩
      (Keypair.generate mockPrimitive []) (Or.inl ⟨[], rfl⟩) []⟩

/-- C2: a signature slice whose length differs from `SIGNBYTES` is
rejected with `SignError::Input` for every message and public key, and
the result does not depend on the signing primitive — the primitive is
not invoked on that call. -/
theorem verify_length_mismatch (P : SigningPrimitive)
    (sig msg pk : List Nat) (h : sig.length ≠ SIGNBYTES) :
    verify P sig msg pk = Except.error SignError.Input ∧
      ∀ Q : SigningPrimitive, verify Q sig msg pk = verify P sig msg pk := by
  constructor
  · unfold verify
    rw [if_pos h]
  · intro Q
    unfold verify
    rw [if_pos h, if_pos h]

/-- The length-mismatch hypothesis holds for the empty signature, and
the rejection theorem applies there. -/
theorem verify_length_mismatch_witness :
    ([] : List Nat).length ≠ SIGNBYTES ∧
      (verify mockPrimitive [] [] [] = Except.error SignError.Input ∧
        ∀ Q : SigningPrimitive,
          verify Q [] [] [] = verify mockPrimitive [] [] []) :=
  ⟨by decide, verify_length_mismatch mockPrimitive [] [] [] (by decide)⟩

/-- C4: `compare_secrets` is the unconditional full scan — it equals
the length test conjoined with the zero test of the accumulated
difference signal, and the number of byte pairs the scan processes is
determined by the buffer lengths alone, independent of the position of
any differing byte and of whether the buffers match at all (no
short-circuit). -/
theorem compare_secrets_no_short_circuit (k1 k2 : Keypair) :
    Keypair.compare_secrets k1 k2 =
        ((k1.secret.length == k2.secret.length) &&
          ((ctScan k1.secret k2.secret).1 == 0)) ∧
      (ctScan k1.secret k2.secret).2 =
        min k1.secret.length k2.secret.length :=
  ⟨rfl, ctScan_steps k1.secret k2.secret⟩

/-- C5: `generate_with_seed` is deterministic — for a `SEEDBYTES`-length
seed, two calls made under different ambient randomness yield
bit-identical `public` fields and bit-identical `secret` fields. -/
theorem generate_with_seed_deterministic (P : SigningPrimitive)
    (rng1 rng2 seed : List Nat) (hs : seed.length = SEEDBYTES) :
    (Keypair.generate_with_seed P rng1 seed).public =
        (Keypair.generate_with_seed P rng2 seed).public ∧
      (Keypair.generate_with_seed P rng1 seed).secret =
        (Keypair.generate_with_seed P rng2 seed).secret :=
  ⟨rfl, rfl⟩

/-- The determinism theorem applies to the spec's scenario seed of 32
bytes of value 3, under two different randomness draws. -/
theorem generate_with_seed_deterministic_witness :
    (List.replicate SEEDBYTES 3).length = SEEDBYTES ∧
      ((Keypair.generate_with_seed mockPrimitive []
            (List.replicate SEEDBYTES 3)).public =
          (Keypair.generate_with_seed mockPrimitive [7]
            (List.replicate SEEDBYTES 3)).public ∧
        (Keypair.generate_with_seed mockPrimitive []
            (List.replicate SEEDBYTES 3)).secret =
          (Keypair.generate_with_seed mockPrimitive [7]
            (List.replicate SEEDBYTES 3)).secret) :=
  ⟨by simp,
    generate_with_seed_deterministic mockPrimitive [] [7]
      (List.replicate SEEDBYTES 3) (by simp)⟩

/-- C6: the debug rendering of a keypair displays the public key value
and replaces the secret field with the fixed `<elided>` placeholder;
the rendered text is a function of the public field alone, so the
secret bytes never reach it. -/
theorem debug_renders_public_elides_secret (k : Keypair) :
    Keypair.debugFmt k =
        "public: " ++ reprStr k.public ++ "\nsecret: <elided>" ∧
      ∀ s : List Nat,
        Keypair.debugFmt { public := k.public, secret := s } =
          Keypair.debugFmt k :=
  ⟨rfl, fun _ => rfl⟩

/-- C7: `compare_secrets` returns `true` exactly when the two secret
byte sequences are identical; in particular it is reflexive. -/
theorem compare_secrets_iff_secret_eq (k1 k2 : Keypair) :
    (Keypair.compare_secrets k1 k2 = true ↔ k1.secret = k2.secret) ∧
      Keypair.compare_secrets k1 k1 = true :=
  ⟨constant_time_eq_iff k1.secret k2.secret,
    (constant_time_eq_iff k1.secret k1.secret).mpr rfl⟩

/-- C8: a keypair is immutable through the public surface — `sign`
borrows the receiver without mutating it, so after any sequence of
sign calls the keypair is unchanged, its `public` and `secret` fields
still the pair produced together by the generation call. -/
theorem keypair_unchanged_by_sign (P : SigningPrimitive) (k : Keypair)
    (msgs : List (List Nat)) :
    List.foldl (fun kp m => (Keypair.signCall P kp m).2) k msgs = k := by
  induction msgs generalizing k with
  | nil => rfl
  | cons m ms ih => exact ih k

/-- C9: when the signature length equals `SIGNBYTES`, `verify` forwards
the message and the public key — of any length — unchecked to the
primitive, and its result is exactly the primitive's result. -/
theorem verify_forwards_when_length_ok (P : SigningPrimitive)
    (sig msg pk : List Nat) (h : sig.length = SIGNBYTES) :
    verify P sig msg pk = crypto_sign_verify P sig msg pk := by
  unfold verify
  rw [if_neg (by simp [h])]

/-- The length hypothesis holds for an all-zero `SIGNBYTES` signature
with an empty message and an empty (non-`PUBLICKEYBYTES`) public key,
and the forwarding theorem applies there. -/
theorem verify_forwards_when_length_ok_witness :
    (List.replicate SIGNBYTES 0).length = SIGNBYTES ∧
      verify mockPrimitive (List.replicate SIGNBYTES 0) [] [] =
        crypto_sign_verify mockPrimitive (List.replicate SIGNBYTES 0) [] [] :=
  ⟨by simp,
    verify_forwards_when_length_ok mockPrimitive
      (List.replicate SIGNBYTES 0) [] [] (by simp)⟩

/-- C10: the derived structural equality on keypairs holds exactly when
both the public arrays and the secret arrays agree byte for byte, and
it is a different relation from `compare_secrets`. -/
theorem keypair_structural_eq :
    (∀ k1 k2 : Keypair, Keypair.beq k1 k2 = true ↔
        (k1.public = k2.public ∧ k1.secret = k2.secret)) ∧
      ∃ k1 k2 : Keypair,
        Keypair.beq k1 k2 ≠ Keypair.compare_secrets k1 k2 := by
  constructor
  · intro k1 k2
    unfold Keypair.beq
    rw [Bool.and_eq_true, beq_iff_eq, beq_iff_eq]
  · exact ⟨{ public := [0], secret := [] },
      { public := [1], secret := [] }, by decide⟩
